import Mathlib

/-!
# Verification of the tor directory subsystem against its specification

Shallow embedding of the parts of the `teor2345/tor` tree covered by the
specification: the integer multiplication helpers of
`src/lib/intmath/muldiv.c`, the directory-server-set resolver
(`consider_adding_dir_servers`), the measured-bandwidth cache and
bandwidth-file ingestion of `dirserv.c`, and the spooled-resource
streaming/reference-counting machinery of `dirserv.h`.

C machine integers are embedded as `Nat` with explicit reductions modulo
`2^32` / `2^64` exactly where the C code's arithmetic can wrap; `time_t` and
`long` are embedded as `Int`.
-/

namespace Tor

/-! ## Integer helpers from src/lib/intmath/muldiv.c -/

/-- `UINT32_MAX` of the C target (32-bit `unsigned int`). -/
def UINT32_MAX : Nat := 2 ^ 32 - 1

/-- `UINT64_MAX` of the C target. -/
def UINT64_MAX : Nat := 2 ^ 64 - 1

/-- Embedding of `tor_mul_u32_nowrap` (muldiv.c lines 90-100).

The C source computes `uint64_t ab = a * b;`.  Both operands have type
`uint32_t`; on the C targets tor supports (`int` is 32 bits wide) the
multiplication is therefore carried out in `unsigned int` arithmetic,
i.e. modulo `2^32`, and only the already-reduced result is widened to
`uint64_t`.  The embedding keeps that reduction, and keeps the (dead)
saturation branch that follows it. -/
def tor_mul_u32_nowrap (a b : Nat) : Nat :=
  let ab : Nat := (a * b) % 2 ^ 32
  if ab > UINT32_MAX then UINT32_MAX else ab

/-- Modelled from the spec: `tor_log2` lives in `src/lib/intmath/bits.c`,
which is not part of this tree; muldiv.c's own comments document its
behaviour: it "returns floor(log2())" and "tor_log2(0) incorrectly
returns 0".  `Nat.log2` has exactly this behaviour. -/
def tor_log2 (n : Nat) : Nat := Nat.log2 n

/-- Embedding of `tor_mul_u64_wrap_classify` (muldiv.c lines 109-144).
Returns `1` when `a*b` definitely overflows `uint64_t`, `-1` when it
definitely does not, and `0` when the log-based bound is inconclusive.
The C local `log_ab_lower_bound` is inlined. -/
def tor_mul_u64_wrap_classify (a b : Nat) : Int :=
  if a < 2 ∨ b < 2 then -1
  else if 64 ≤ tor_log2 a + tor_log2 b then 1
  else if tor_log2 a + tor_log2 b ≤ 62 then -1
  else 0

/-- Embedding of `tor_mul_u64_nowrap` (muldiv.c lines 149-168).  The C
multiplications `a*b` are `uint64_t` multiplications, hence the
`% 2 ^ 64`; `UINT64_MAX / b` is C unsigned (= Nat floor) division.
The C local `wrap_class` is inlined. -/
def tor_mul_u64_nowrap (a b : Nat) : Nat :=
  if tor_mul_u64_wrap_classify a b < 0 then (a * b) % 2 ^ 64
  else if tor_mul_u64_wrap_classify a b > 0 then UINT64_MAX
  else if a > UINT64_MAX / b then UINT64_MAX
  else (a * b) % 2 ^ 64

end Tor

/-! ### Theorems about the multiplication helpers -/

namespace Tor

/-- `tor_mul_u32_nowrap` at `a = b = 2^16`: the product is `2^32`, which is
greater than `UINT32_MAX`, yet the function returns `0` because the C
multiplication has already wrapped modulo `2^32` before the saturation
check runs.  This contradicts the function's own documentation
("capping at UINT32_MAX rather than overflow", "Uses 64-bit
multiplication"): the missing cast makes the check dead code. -/
theorem tor_mul_u32_nowrap_wraps_at_65536 :
    tor_mul_u32_nowrap 65536 65536 = 0 ∧ 65536 * 65536 > UINT32_MAX := by
  constructor
  · rfl
  · decide

/-- Soundness of the cheap side of `tor_mul_u64_wrap_classify`: when the sum
of the floor-logs is at most 62 the product fits in 64 bits. -/
theorem mul_lt_two_pow_64_of_log2_le (a b : Nat)
    (h : tor_log2 a + tor_log2 b ≤ 62) : a * b < 2 ^ 64 := by
  have hpa : a < 2 ^ (Nat.log 2 a + 1) := Nat.lt_pow_succ_log_self (by norm_num) a
  have hpb : b < 2 ^ (Nat.log 2 b + 1) := Nat.lt_pow_succ_log_self (by norm_num) b
  have hl : Nat.log 2 a + Nat.log 2 b ≤ 62 := by
    simpa [tor_log2, Nat.log2_eq_log_two] using h
  calc a * b < 2 ^ (Nat.log 2 a + 1) * 2 ^ (Nat.log 2 b + 1) :=
        mul_lt_mul'' hpa hpb (Nat.zero_le a) (Nat.zero_le b)
    _ = 2 ^ (Nat.log 2 a + Nat.log 2 b + 2) := by
        rw [← pow_add]; congr 1; omega
    _ ≤ 2 ^ 64 := Nat.pow_le_pow_right (by norm_num) (by omega)

/-- Soundness of the overflow side of `tor_mul_u64_wrap_classify`: when both
operands are at least 2 and the sum of the floor-logs is at least 64 the
product overflows 64 bits. -/
theorem two_pow_64_le_mul_of_log2_ge (a b : Nat) (h2a : 2 ≤ a) (h2b : 2 ≤ b)
    (h : 64 ≤ tor_log2 a + tor_log2 b) : 2 ^ 64 ≤ a * b := by
  have hpa : 2 ^ Nat.log 2 a ≤ a := Nat.pow_log_le_self 2 (by omega)
  have hpb : 2 ^ Nat.log 2 b ≤ b := Nat.pow_log_le_self 2 (by omega)
  have hl : 64 ≤ Nat.log 2 a + Nat.log 2 b := by
    simpa [tor_log2, Nat.log2_eq_log_two] using h
  calc (2 : Nat) ^ 64 ≤ 2 ^ (Nat.log 2 a + Nat.log 2 b) :=
        Nat.pow_le_pow_right (by norm_num) hl
    _ = 2 ^ Nat.log 2 a * 2 ^ Nat.log 2 b := pow_add 2 _ _
    _ ≤ a * b := Nat.mul_le_mul hpa hpb

/-- C10: `tor_mul_u64_nowrap` returns the exact product when it fits in
64 bits and `UINT64_MAX` otherwise, and `tor_mul_u64_wrap_classify` never
misclassifies: `1` implies the exact product overflows, `-1` implies it
fits. -/
theorem tor_mul_u64_nowrap_saturates (a b : Nat)
    (ha : a ≤ UINT64_MAX) (hb : b ≤ UINT64_MAX) :
    tor_mul_u64_nowrap a b
      = (if a * b ≤ UINT64_MAX then a * b else UINT64_MAX) ∧
    (tor_mul_u64_wrap_classify a b = 1 → UINT64_MAX < a * b) ∧
    (tor_mul_u64_wrap_classify a b = -1 → a * b ≤ UINT64_MAX) := by
  have hmax : UINT64_MAX + 1 = 2 ^ 64 := by decide
  by_cases hsmall : a < 2 ∨ b < 2
  · have hc : tor_mul_u64_wrap_classify a b = -1 := by
      rw [tor_mul_u64_wrap_classify, if_pos hsmall]
    have hfit : a * b ≤ UINT64_MAX := by
      rcases hsmall with h | h
      · have : a * b ≤ 1 * b := Nat.mul_le_mul_right b (by omega)
        omega
      · have : a * b ≤ a * 1 := Nat.mul_le_mul_left a (by omega)
        omega
    have hmod : a * b % 2 ^ 64 = a * b := Nat.mod_eq_of_lt (by omega)
    refine ⟨?_, ?_, fun _ => hfit⟩
    · rw [tor_mul_u64_nowrap, hc, if_pos (by decide : (-1 : Int) < 0), hmod,
        if_pos hfit]
    · rw [hc]; intro h; exact absurd h (by decide)
  · push_neg at hsmall
    obtain ⟨h2a, h2b⟩ := hsmall
    by_cases hge : 64 ≤ tor_log2 a + tor_log2 b
    · have hc : tor_mul_u64_wrap_classify a b = 1 := by
        rw [tor_mul_u64_wrap_classify, if_neg (by omega), if_pos hge]
      have hov : 2 ^ 64 ≤ a * b := two_pow_64_le_mul_of_log2_ge a b h2a h2b hge
      have hbig : UINT64_MAX < a * b := by omega
      refine ⟨?_, fun _ => hbig, ?_⟩
      · rw [tor_mul_u64_nowrap, hc, if_neg (by decide : ¬ (1 : Int) < 0),
          if_pos (by decide : (1 : Int) > 0), if_neg (by omega)]
      · rw [hc]; intro h; exact absurd h (by decide)
    · by_cases hle : tor_log2 a + tor_log2 b ≤ 62
      · have hc : tor_mul_u64_wrap_classify a b = -1 := by
          rw [tor_mul_u64_wrap_classify, if_neg (by omega), if_neg hge,
            if_pos hle]
        have hlt : a * b < 2 ^ 64 := mul_lt_two_pow_64_of_log2_le a b hle
        have hfit : a * b ≤ UINT64_MAX := by omega
        have hmod : a * b % 2 ^ 64 = a * b := Nat.mod_eq_of_lt hlt
        refine ⟨?_, ?_, fun _ => hfit⟩
        · rw [tor_mul_u64_nowrap, hc, if_pos (by decide : (-1 : Int) < 0),
            hmod, if_pos hfit]
        · rw [hc]; intro h; exact absurd h (by decide)
      · have hc : tor_mul_u64_wrap_classify a b = 0 := by
          rw [tor_mul_u64_wrap_classify, if_neg (by omega), if_neg hge,
            if_neg hle]
        have hbpos : 0 < b := by omega
        by_cases hdiv : a > UINT64_MAX / b
        · have hgt : UINT64_MAX < a * b := by
            by_contra hle2
            push_neg at hle2
            have : a ≤ UINT64_MAX / b := (Nat.le_div_iff_mul_le hbpos).mpr hle2
            omega
          refine ⟨?_, ?_, ?_⟩
          · rw [tor_mul_u64_nowrap, hc, if_neg (by decide : ¬ (0 : Int) < 0),
              if_neg (by decide : ¬ (0 : Int) > 0), if_pos hdiv,
              if_neg (by omega)]
          · rw [hc]; intro h; exact absurd h (by decide)
          · rw [hc]; intro h; exact absurd h (by decide)
        · push_neg at hdiv
          have hfit : a * b ≤ UINT64_MAX :=
            (Nat.le_div_iff_mul_le hbpos).mp hdiv
          have hmod : a * b % 2 ^ 64 = a * b := Nat.mod_eq_of_lt (by omega)
          refine ⟨?_, ?_, ?_⟩
          · rw [tor_mul_u64_nowrap, hc, if_neg (by decide : ¬ (0 : Int) < 0),
              if_neg (by decide : ¬ (0 : Int) > 0), if_neg (by omega), hmod,
              if_pos hfit]
          · rw [hc]; intro h; exact absurd h (by decide)
          · rw [hc]; intro h; exact absurd h (by decide)

/-- Witness for `tor_mul_u64_nowrap_saturates` at `a = 3`, `b = 5`. -/
theorem tor_mul_u64_nowrap_saturates_witness :
    tor_mul_u64_nowrap 3 5 = (if 3 * 5 ≤ UINT64_MAX then 3 * 5 else UINT64_MAX) :=
  (tor_mul_u64_nowrap_saturates 3 5 (by decide) (by decide)).1

/-! ## Directory server set resolver

`consider_adding_dir_servers`, `dir_server_add` and the default-list
helpers live in `config.c`/`routerlist.c`, which are not part of this
tree; only their unit tests (`test_config_adding_dir_servers`,
`test_config_adding_trusted_dir_server`,
`test_config_adding_default_trusted_dir_servers`,
`test_config_default_dir_servers` in `src/unnamed/part_000`) and the
spec's §4.6 algorithm are available.  The definitions below are modelled
from the spec, with every branch pinned against the assertions of those
tests.  Config-line parsing is an excluded collaborator, so option lists
arrive pre-parsed as lists of directory-server records. -/

/-- One authority or fallback cache, with the fields the tests observe.
`parse_dir_authority_line` produces records with `is_authority = true`;
`parse_dir_fallback_line` produces records with `is_authority = false`. -/
structure dir_server_t where
  nickname : String
  dir_port : Nat
  is_authority : Bool
  is_bridge : Bool
deriving DecidableEq, Repr

/-- The two global collections replaced by the resolver. -/
structure dir_registry where
  trusted_dir_servers : List dir_server_t
  fallback_dir_servers : List dir_server_t
deriving DecidableEq, Repr

/-- Modelled from the spec: `dir_server_add` (routerlist.c, not in this
tree).  Adding a server appends it to the trusted list when it is an
authority, and always appends it to the fallback list — pinned by
`test_config_adding_trusted_dir_server` and
`test_config_adding_fallback_dir_server`, where every
`trusted_dir_server_new`+`dir_server_add` grows both counts and every
`fallback_dir_server_new`+`dir_server_add` grows only the fallback
count. -/
def dir_server_add (s : dir_server_t) (st : dir_registry) : dir_registry :=
  { trusted_dir_servers :=
      if s.is_authority then st.trusted_dir_servers ++ [s]
      else st.trusted_dir_servers
    fallback_dir_servers := st.fallback_dir_servers ++ [s] }

/-- Add a whole list of servers through `dir_server_add`, in order. -/
def dir_server_add_all (ss : List dir_server_t) (st : dir_registry) :
    dir_registry :=
  ss.foldl (fun acc s => dir_server_add s acc) st

/-- The hard-coded default lists of a build: default bridge authorities,
default non-bridge (v3) authorities, and default fallback directories.
The tests mock these, so the model takes them as a parameter. -/
structure dir_defaults where
  default_bridge_authorities : List dir_server_t
  default_dir_authorities : List dir_server_t
  default_fallbacks : List dir_server_t

/-- The five configuration inputs consumed by the resolver.  A `none`
option is an unset (`NULL`) config line list; a `some` option carries its
pre-parsed directory-server records. -/
structure or_options_t where
  DirAuthorities : Option (List dir_server_t)
  AlternateBridgeAuthority : Option (List dir_server_t)
  AlternateDirAuthority : Option (List dir_server_t)
  FallbackDir : Option (List dir_server_t)
  UseDefaultFallbackDirs : Bool
deriving DecidableEq, Repr

/-- Modelled from the spec: `add_default_trusted_dir_authorities`
(config.c, not in this tree); adds the default authorities selected by
the requested `DirInfo` capabilities through `dir_server_add`. -/
def add_default_trusted_dir_authorities (d : dir_defaults)
    (want_bridge want_v3 : Bool) (st : dir_registry) : dir_registry :=
  let st :=
    if want_bridge then dir_server_add_all d.default_bridge_authorities st
    else st
  if want_v3 then dir_server_add_all d.default_dir_authorities st else st

/-- Modelled from the spec: `add_default_fallback_dir_servers` (config.c,
not in this tree); adds the built-in fallback directories through
`dir_server_add` (via `parse_dir_fallback_line`). -/
def add_default_fallback_dir_servers (d : dir_defaults)
    (st : dir_registry) : dir_registry :=
  dir_server_add_all d.default_fallbacks st

/-- Modelled from the spec: the `need_to_update` test at the top of
`consider_adding_dir_servers` — rebuild when either global list is
empty, when there are no old options, or when any of the five
directory-server options changed (`test_config_default_dir_servers`
passes `old_options = NULL` "to force dir update"). -/
def dir_servers_need_to_update (st : dir_registry) (options : or_options_t)
    (old_options : Option or_options_t) : Bool :=
  st.trusted_dir_servers.isEmpty || st.fallback_dir_servers.isEmpty ||
    match old_options with
    | none => true
    | some o =>
        decide (options.DirAuthorities ≠ o.DirAuthorities) ||
        decide (options.FallbackDir ≠ o.FallbackDir) ||
        decide (options.UseDefaultFallbackDirs ≠ o.UseDefaultFallbackDirs) ||
        decide (options.AlternateBridgeAuthority ≠
          o.AlternateBridgeAuthority) ||
        decide (options.AlternateDirAuthority ≠ o.AlternateDirAuthority)

/-- The rebuild performed by `consider_adding_dir_servers` once it has
decided to update: clear both lists, then (when no explicit authority
list is set) add the default authorities whose alternate list is unset —
adding the default fallbacks first when additionally no alternate
directory authority, no explicit fallback list, and default fallbacks
are enabled — then add every server from the four option lists. -/
def build_dir_servers (d : dir_defaults) (options : or_options_t) :
    dir_registry :=
  let st : dir_registry := ⟨[], []⟩
  let st :=
    if options.DirAuthorities.isNone then
      let want_bridge := options.AlternateBridgeAuthority.isNone
      let want_v3 := options.AlternateDirAuthority.isNone
      let st :=
        if want_v3 && options.FallbackDir.isNone &&
            options.UseDefaultFallbackDirs then
          add_default_fallback_dir_servers d st
        else st
      add_default_trusted_dir_authorities d want_bridge want_v3 st
    else st
  let st := dir_server_add_all (options.DirAuthorities.getD []) st
  let st := dir_server_add_all (options.AlternateBridgeAuthority.getD []) st
  let st := dir_server_add_all (options.AlternateDirAuthority.getD []) st
  dir_server_add_all (options.FallbackDir.getD []) st

/-- Modelled from the spec: `consider_adding_dir_servers` (config.c, not
in this tree), §4.6 of the spec, pinned by the ten cases of
`test_config_adding_dir_servers`.  Replaces both global lists from
scratch when an update is needed, and leaves the state untouched
otherwise. -/
def consider_adding_dir_servers (d : dir_defaults) (options : or_options_t)
    (old_options : Option or_options_t) (st : dir_registry) : dir_registry :=
  if dir_servers_need_to_update st options old_options then
    build_dir_servers d options
  else st

/-! ### Structural lemmas about the resolver -/

theorem dir_server_add_all_nil (st : dir_registry) :
    dir_server_add_all [] st = st := rfl

theorem dir_server_add_all_cons (s : dir_server_t) (ss : List dir_server_t)
    (st : dir_registry) :
    dir_server_add_all (s :: ss) st
      = dir_server_add_all ss (dir_server_add s st) := rfl

/-- Adding a list of servers appends its authorities to the trusted list. -/
theorem dir_server_add_all_trusted (ss : List dir_server_t)
    (st : dir_registry) :
    (dir_server_add_all ss st).trusted_dir_servers
      = st.trusted_dir_servers ++ ss.filter (fun s => s.is_authority) := by
  induction ss generalizing st with
  | nil => simp [dir_server_add_all_nil]
  | cons s ss ih =>
    rw [dir_server_add_all_cons, ih]
    by_cases hs : s.is_authority
    · simp [dir_server_add, hs, List.filter_cons]
    · simp [dir_server_add, hs, List.filter_cons]

/-- Adding a list of servers appends all of it to the fallback list. -/
theorem dir_server_add_all_fallback (ss : List dir_server_t)
    (st : dir_registry) :
    (dir_server_add_all ss st).fallback_dir_servers
      = st.fallback_dir_servers ++ ss := by
  induction ss generalizing st with
  | nil => simp [dir_server_add_all_nil]
  | cons s ss ih =>
    rw [dir_server_add_all_cons, ih]
    simp [dir_server_add]

/-- With `old_options = NULL` the resolver always rebuilds. -/
theorem consider_adding_dir_servers_none (d : dir_defaults)
    (options : or_options_t) (st : dir_registry) :
    consider_adding_dir_servers d options none st
      = build_dir_servers d options := by
  rw [consider_adding_dir_servers]
  have h : dir_servers_need_to_update st options none = true := by
    simp [dir_servers_need_to_update]
  rw [if_pos h]

/-- Trusted list produced by a rebuild when only the
alternate-bridge-authority option is set (`0100` / `0101` shapes of
`test_config_adding_dir_servers`): the default non-bridge authorities
followed by the alternate bridge authorities. -/
theorem build_alt_bridge_only_trusted (d : dir_defaults)
    (abas : List dir_server_t) (fb : Option (List dir_server_t)) (udf : Bool)
    (hdef_v3 : ∀ s ∈ d.default_dir_authorities, s.is_authority = true)
    (hdef_fb : ∀ s ∈ d.default_fallbacks, s.is_authority = false)
    (habas : ∀ s ∈ abas, s.is_authority = true)
    (hfb : ∀ s ∈ fb.getD [], s.is_authority = false) :
    (build_dir_servers d
        ⟨none, some abas, none, fb, udf⟩).trusted_dir_servers
      = d.default_dir_authorities ++ abas := by
  have h1 : d.default_fallbacks.filter (fun s => s.is_authority) = [] :=
    List.filter_eq_nil_iff.mpr (fun a ha => by simp [hdef_fb a ha])
  have h2 : d.default_dir_authorities.filter (fun s => s.is_authority)
      = d.default_dir_authorities := List.filter_eq_self.mpr hdef_v3
  have h3 : abas.filter (fun s => s.is_authority) = abas :=
    List.filter_eq_self.mpr habas
  have h4 : (fb.getD []).filter (fun s => s.is_authority) = [] :=
    List.filter_eq_nil_iff.mpr (fun a ha => by simp [hfb a ha])
  by_cases hc : (fb.isNone && udf) = true
  · simp [build_dir_servers, add_default_trusted_dir_authorities,
      add_default_fallback_dir_servers, hc, dir_server_add_all_trusted,
      dir_server_add_all_nil, h1, h2, h3, h4]
  · simp [build_dir_servers, add_default_trusted_dir_authorities,
      add_default_fallback_dir_servers, hc, dir_server_add_all_trusted,
      dir_server_add_all_nil, h1, h2, h3, h4]

/-- Fallback list produced by a rebuild when only the
alternate-bridge-authority option is set, no explicit fallback list is
given, and default fallbacks are enabled (`0100` shape): the built-in
default fallbacks, then the default non-bridge authorities, then the
alternate bridge authorities. -/
theorem build_alt_bridge_only_fallback (d : dir_defaults)
    (abas : List dir_server_t) :
    (build_dir_servers d
        ⟨none, some abas, none, none, true⟩).fallback_dir_servers
      = d.default_fallbacks ++ d.default_dir_authorities ++ abas := by
  simp [build_dir_servers, add_default_trusted_dir_authorities,
    add_default_fallback_dir_servers, dir_server_add_all_fallback,
    dir_server_add_all_nil]

/-! ### Claim theorems about the resolver -/

/-- Concrete data for the alternate-bridge-authority-only configuration:
one default non-bridge authority, one default fallback, one alternate
bridge authority (ports follow `test_config_adding_dir_servers`). -/
def exDefaultV3 : dir_server_t := ⟨"V", 60001, true, false⟩

/-- A default fallback directory (not an authority). -/
def exDefaultFallback : dir_server_t := ⟨"F", 60099, false, false⟩

/-- An alternate bridge authority, like `B1` of the test. -/
def exBridgeAuth : dir_server_t := ⟨"B1", 60091, true, true⟩

/-- Hard-coded defaults for the counterexample build. -/
def exDefaults : dir_defaults := ⟨[], [exDefaultV3], [exDefaultFallback]⟩

/-- Options of case `0100`: only `AlternateBridgeAuthority` set,
`UseDefaultFallbackDirs = 1`. -/
def exOptionsAltBridge : or_options_t :=
  ⟨none, some [exBridgeAuth], none, none, true⟩

/-- C1 as stated is false: in the alternate-bridge-authority-only
configuration with "use default fallbacks" true, the rebuilt fallback
list contains the built-in default fallback entry, which is not a member
of the trusted-authority set — matching `test_config_adding_dir_servers`
case `0100`, which asserts that `add_default_fallback_dir_servers` runs
and that the fallback list has one more entry than the trusted list. -/
theorem consider_alt_bridge_adds_default_fallback :
    exDefaultFallback ∈ (consider_adding_dir_servers exDefaults
        exOptionsAltBridge none ⟨[], []⟩).fallback_dir_servers
      ∧ exDefaultFallback ∉ (consider_adding_dir_servers exDefaults
        exOptionsAltBridge none ⟨[], []⟩).trusted_dir_servers := by
  decide

/-- C1 (amended): in a configuration where only the
alternate-bridge-authority list is set and "use default fallbacks" is
true, `consider_adding_dir_servers` does add the built-in default
fallback entries: the resulting fallback list consists of exactly the
default fallback entries together with the members of the trusted
set. -/
theorem consider_alt_bridge_fallback_is_trusted_plus_defaults
    (d : dir_defaults) (abas : List dir_server_t) (st : dir_registry)
    (hdef_v3 : ∀ s ∈ d.default_dir_authorities, s.is_authority = true)
    (hdef_fb : ∀ s ∈ d.default_fallbacks, s.is_authority = false)
    (habas : ∀ s ∈ abas, s.is_authority = true) :
    (consider_adding_dir_servers d
        ⟨none, some abas, none, none, true⟩ none st).fallback_dir_servers
      = d.default_fallbacks ++ (consider_adding_dir_servers d
        ⟨none, some abas, none, none, true⟩ none st).trusted_dir_servers := by
  rw [consider_adding_dir_servers_none, build_alt_bridge_only_fallback,
    build_alt_bridge_only_trusted d abas none true hdef_v3 hdef_fb habas
      (by simp), List.append_assoc]

/-- Witness for `consider_alt_bridge_fallback_is_trusted_plus_defaults`
on the concrete `0100` data. -/
theorem consider_alt_bridge_fallback_witness :
    (consider_adding_dir_servers exDefaults
        exOptionsAltBridge none ⟨[], []⟩).fallback_dir_servers
      = exDefaults.default_fallbacks ++ (consider_adding_dir_servers exDefaults
        exOptionsAltBridge none ⟨[], []⟩).trusted_dir_servers :=
  consider_alt_bridge_fallback_is_trusted_plus_defaults exDefaults
    [exBridgeAuth] ⟨[], []⟩ (by decide) (by decide) (by decide)

/-- C7: with the alternate-bridge-authority list set and both the
explicit authority list and the alternate-directory-authority list
unset, the rebuilt trusted set is exactly the default non-bridge
authorities together with the alternate bridge authorities. -/
theorem consider_alt_bridge_trusted_exact (d : dir_defaults)
    (abas : List dir_server_t) (fb : Option (List dir_server_t)) (udf : Bool)
    (st : dir_registry)
    (hdef_v3 : ∀ s ∈ d.default_dir_authorities, s.is_authority = true)
    (hdef_fb : ∀ s ∈ d.default_fallbacks, s.is_authority = false)
    (habas : ∀ s ∈ abas, s.is_authority = true)
    (hfb : ∀ s ∈ fb.getD [], s.is_authority = false) :
    (consider_adding_dir_servers d
        ⟨none, some abas, none, fb, udf⟩ none st).trusted_dir_servers
      = d.default_dir_authorities ++ abas := by
  rw [consider_adding_dir_servers_none,
    build_alt_bridge_only_trusted d abas fb udf hdef_v3 hdef_fb habas hfb]

/-- Witness for `consider_alt_bridge_trusted_exact` on concrete data:
one default v3 authority, one default fallback, one bridge authority. -/
theorem consider_alt_bridge_trusted_exact_witness :
    (consider_adding_dir_servers
        ⟨[], [⟨"v3", 7001, true, false⟩], [⟨"fb", 7099, false, false⟩]⟩
        ⟨none, some [⟨"ba", 7091, true, true⟩], none, none, true⟩
        none ⟨[], []⟩).trusted_dir_servers
      = [⟨"v3", 7001, true, false⟩] ++ [⟨"ba", 7091, true, true⟩] :=
  consider_alt_bridge_trusted_exact
    ⟨[], [⟨"v3", 7001, true, false⟩], [⟨"fb", 7099, false, false⟩]⟩
    [⟨"ba", 7091, true, true⟩] none true ⟨[], []⟩
    (by decide) (by decide) (by decide) (by simp)

/-- C2: re-invoking `consider_adding_dir_servers` with the same,
unchanged options yields exactly the lists a single invocation yields —
whether the second call passes the unchanged options as `old_options`
(and so skips the rebuild) or passes `NULL` (and so rebuilds from
scratch), no entry is duplicated. -/
theorem consider_adding_dir_servers_idempotent (d : dir_defaults)
    (options : or_options_t) (old_options : Option or_options_t)
    (st : dir_registry) :
    consider_adding_dir_servers d options (some options)
        (consider_adding_dir_servers d options old_options st)
      = consider_adding_dir_servers d options old_options st ∧
    consider_adding_dir_servers d options none
        (consider_adding_dir_servers d options none st)
      = consider_adding_dir_servers d options none st := by
  refine ⟨?_, by rw [consider_adding_dir_servers_none,
    consider_adding_dir_servers_none]⟩
  by_cases h : dir_servers_need_to_update st options old_options = true
  · have hst1 : consider_adding_dir_servers d options old_options st
        = build_dir_servers d options := by
      rw [consider_adding_dir_servers, if_pos h]
    rw [hst1, consider_adding_dir_servers, ite_self]
  · have hst1 : consider_adding_dir_servers d options old_options st = st := by
      rw [consider_adding_dir_servers, if_neg h]
    have h' : dir_servers_need_to_update st options old_options = false := by
      simpa using h
    have h2 : dir_servers_need_to_update st options (some options) = false := by
      simp only [dir_servers_need_to_update, Bool.or_eq_false_iff] at h' ⊢
      exact ⟨h'.1, by simp⟩
    rw [hst1, consider_adding_dir_servers, if_neg (by simp [h2])]

/-- Operations on the directory-server collections considered by the
invariant: adding one server, adding the default authorities of some
capability set, and a full resolver pass. -/
inductive dir_op where
  | add (s : dir_server_t)
  | add_defaults (d : dir_defaults) (want_bridge want_v3 : Bool)
  | resolve (d : dir_defaults) (options : or_options_t)
      (old_options : Option or_options_t)

/-- Apply one operation to the registry. -/
def dir_op.apply : dir_op → dir_registry → dir_registry
  | .add s, st => dir_server_add s st
  | .add_defaults d wb wv, st => add_default_trusted_dir_authorities d wb wv st
  | .resolve d o old, st => consider_adding_dir_servers d o old st

/-- Run a sequence of operations from a starting registry. -/
def run_dir_ops (ops : List dir_op) (st : dir_registry) : dir_registry :=
  ops.foldl (fun acc op => op.apply acc) st

/-- The invariant: every trusted server is also a fallback server. -/
def trusted_in_fallback (st : dir_registry) : Prop :=
  ∀ s ∈ st.trusted_dir_servers, s ∈ st.fallback_dir_servers

theorem dir_server_add_trusted_in_fallback (s : dir_server_t)
    (st : dir_registry) (h : trusted_in_fallback st) :
    trusted_in_fallback (dir_server_add s st) := by
  intro x hx
  by_cases hs : s.is_authority
  · simp only [dir_server_add, hs, if_pos, List.mem_append,
      List.mem_singleton] at hx ⊢
    rcases hx with hx | hx
    · exact Or.inl (h x hx)
    · exact Or.inr hx
  · simp only [dir_server_add, hs, if_neg, List.mem_append] at hx ⊢
    exact Or.inl (h x hx)

theorem dir_server_add_all_trusted_in_fallback (ss : List dir_server_t)
    (st : dir_registry) (h : trusted_in_fallback st) :
    trusted_in_fallback (dir_server_add_all ss st) := by
  induction ss generalizing st with
  | nil => exact h
  | cons s ss ih =>
    rw [dir_server_add_all_cons]
    exact ih _ (dir_server_add_trusted_in_fallback s st h)

theorem add_default_trusted_dir_authorities_trusted_in_fallback
    (d : dir_defaults) (wb wv : Bool) (st : dir_registry)
    (h : trusted_in_fallback st) :
    trusted_in_fallback (add_default_trusted_dir_authorities d wb wv st) := by
  rw [add_default_trusted_dir_authorities]
  split
  · split
    · exact dir_server_add_all_trusted_in_fallback _ _
        (dir_server_add_all_trusted_in_fallback _ _ h)
    · exact dir_server_add_all_trusted_in_fallback _ _ h
  · split
    · exact dir_server_add_all_trusted_in_fallback _ _ h
    · exact h

theorem build_dir_servers_trusted_in_fallback (d : dir_defaults)
    (options : or_options_t) :
    trusted_in_fallback (build_dir_servers d options) := by
  rw [build_dir_servers]
  refine dir_server_add_all_trusted_in_fallback _ _
    (dir_server_add_all_trusted_in_fallback _ _
      (dir_server_add_all_trusted_in_fallback _ _
        (dir_server_add_all_trusted_in_fallback _ _ ?_)))
  split
  · refine add_default_trusted_dir_authorities_trusted_in_fallback _ _ _ _ ?_
    split
    · exact dir_server_add_all_trusted_in_fallback _ _ (by intro x hx; cases hx)
    · intro x hx; cases hx
  · intro x hx; cases hx

theorem consider_adding_dir_servers_trusted_in_fallback (d : dir_defaults)
    (options : or_options_t) (old_options : Option or_options_t)
    (st : dir_registry) (h : trusted_in_fallback st) :
    trusted_in_fallback
      (consider_adding_dir_servers d options old_options st) := by
  rw [consider_adding_dir_servers]
  split
  · exact build_dir_servers_trusted_in_fallback d options
  · exact h

/-- C8: after any sequence of directory-server-set operations starting
from the empty collections, every server in the trusted list is also in
the fallback list. -/
theorem run_dir_ops_trusted_in_fallback (ops : List dir_op) :
    ∀ s ∈ (run_dir_ops ops ⟨[], []⟩).trusted_dir_servers,
      s ∈ (run_dir_ops ops ⟨[], []⟩).fallback_dir_servers := by
  have main : ∀ (ops : List dir_op) (st : dir_registry),
      trusted_in_fallback st → trusted_in_fallback (run_dir_ops ops st) := by
    intro ops
    induction ops with
    | nil => intro st h; exact h
    | cons op ops ih =>
      intro st h
      refine ih _ ?_
      cases op with
      | add s => exact dir_server_add_trusted_in_fallback s st h
      | add_defaults d wb wv =>
        exact add_default_trusted_dir_authorities_trusted_in_fallback
          d wb wv st h
      | resolve d o old =>
        exact consider_adding_dir_servers_trusted_in_fallback d o old st h
  exact main ops ⟨[], []⟩ (by intro x hx; cases hx)

/-- Witness for `run_dir_ops_trusted_in_fallback`: one added authority
is found in the fallback list. -/
theorem run_dir_ops_trusted_in_fallback_witness :
    (⟨"ds", 9060, true, false⟩ : dir_server_t) ∈
      (run_dir_ops [dir_op.add ⟨"ds", 9060, true, false⟩]
        ⟨[], []⟩).fallback_dir_servers :=
  run_dir_ops_trusted_in_fallback [dir_op.add ⟨"ds", 9060, true, false⟩]
    ⟨"ds", 9060, true, false⟩ (by decide)

/-! ## Measured-bandwidth cache

The cache operations live in `dirserv.c`, which is not part of this
tree; only their declarations (`dirserv.h` lines 175-200) and the spec's
§4.2 are available, so the definitions are modelled from the spec.
`MAX_MEASUREMENT_AGE` itself is in `dirserv.h` line 190.  `time_t` and
`long` are embedded as `Int`; the digest key as a string. -/

/-- `MAX_MEASUREMENT_AGE` (dirserv.h line 190): 3 days, in seconds. -/
def MAX_MEASUREMENT_AGE : Int := 3 * 24 * 60 * 60

/-- One cache slot: measured bandwidth and the time it was received. -/
structure mbw_cache_entry_t where
  bw_kb : Int
  as_of : Int
deriving DecidableEq, Repr

/-- The digest-keyed measurement cache, as an association list whose
first matching binding is authoritative. -/
abbrev mbw_cache : Type := List (String × mbw_cache_entry_t)

/-- First-match lookup in the cache. -/
def mbw_lookup (node_id : String) : mbw_cache → Option mbw_cache_entry_t
  | [] => none
  | (k, v) :: rest =>
      if k = node_id then some v else mbw_lookup node_id rest

/-- Modelled from the spec: `dirserv_cache_measured_bw` (dirserv.c,
absent) — inserts or fully overwrites the entry for the node; a new
measurement replaces the old one ("last write wins"). -/
def dirserv_cache_measured_bw (node_id : String) (bw_kb as_of : Int)
    (cache : mbw_cache) : mbw_cache :=
  (node_id, ⟨bw_kb, as_of⟩) :: cache.filter (fun p => p.1 != node_id)

/-- Modelled from the spec: `dirserv_query_measured_bw_cache_kb`
(dirserv.h lines 175-177, body absent) — a pure query that returns
`none` when the node is absent or when `now - as_of` exceeds
`MAX_MEASUREMENT_AGE`; a stale hit answers exactly like a miss, and the
cache is not modified (the function does not return a cache at all). -/
def dirserv_query_measured_bw_cache_kb (node_id : String) (now : Int)
    (cache : mbw_cache) : Option (Int × Int) :=
  match mbw_lookup node_id cache with
  | none => none
  | some e =>
      if now - e.as_of ≤ MAX_MEASUREMENT_AGE then some (e.bw_kb, e.as_of)
      else none

/-- Modelled from the spec: `dirserv_expire_measured_bw_cache` (dirserv.h
line 200, body absent) — the separate explicit sweep that removes every
entry older than the threshold. -/
def dirserv_expire_measured_bw_cache (now : Int) (cache : mbw_cache) :
    mbw_cache :=
  cache.filter (fun p => decide (now - p.2.as_of ≤ MAX_MEASUREMENT_AGE))

/-- C3: after caching a measurement `(N, as_of)` for a node, a query at
`now` returns `(N, as_of)` when `now - as_of ≤ MAX_MEASUREMENT_AGE` and
a miss when `now - as_of > MAX_MEASUREMENT_AGE`; in the stale case the
entry is still present in the cache (only the explicit expiry sweep
evicts), as the last conjunct records. -/
theorem query_measured_bw_cache_after_cache (node_id : String)
    (bw as_of now : Int) (c : mbw_cache) :
    (now - as_of ≤ MAX_MEASUREMENT_AGE →
      dirserv_query_measured_bw_cache_kb node_id now
        (dirserv_cache_measured_bw node_id bw as_of c) = some (bw, as_of)) ∧
    (MAX_MEASUREMENT_AGE < now - as_of →
      dirserv_query_measured_bw_cache_kb node_id now
        (dirserv_cache_measured_bw node_id bw as_of c) = none) ∧
    mbw_lookup node_id (dirserv_cache_measured_bw node_id bw as_of c)
      = some ⟨bw, as_of⟩ := by
  have hl : mbw_lookup node_id (dirserv_cache_measured_bw node_id bw as_of c)
      = some ⟨bw, as_of⟩ := by
    simp [dirserv_cache_measured_bw, mbw_lookup]
  refine ⟨?_, ?_, hl⟩
  · intro h
    rw [dirserv_query_measured_bw_cache_kb, hl]
    simp [h]
  · intro h
    rw [dirserv_query_measured_bw_cache_kb, hl]
    simp only [ite_eq_right_iff]
    intro h'
    omega

/-- Witness for `query_measured_bw_cache_after_cache`: a fresh and a
stale query on a concretely cached measurement. -/
theorem query_measured_bw_cache_after_cache_witness :
    dirserv_query_measured_bw_cache_kb "D" 100
        (dirserv_cache_measured_bw "D" 800 50 []) = some (800, 50) ∧
    dirserv_query_measured_bw_cache_kb "D" 300000
        (dirserv_cache_measured_bw "D" 800 50 []) = none :=
  ⟨(query_measured_bw_cache_after_cache "D" 800 50 100 []).1 (by decide),
   (query_measured_bw_cache_after_cache "D" 800 50 300000 []).2.1 (by decide)⟩

/-! ## Bandwidth-line parsing and file ingestion

`measured_bw_line_parse` and `dirserv_read_measured_bandwidths` live in
`dirserv.c`, absent from this tree; only their declarations (dirserv.h
lines 192-209) and the spec's §4.1/§4.3 are available, so they are
modelled from the spec.  The `key=value` tokenizer is an excluded
collaborator per §1, so a line arrives as its token list. -/

/-- An identity digest is `DIGEST_LEN` = 20 bytes, i.e. 40 hex digits. -/
def HEX_DIGEST_LEN : Nat := 40

/-- Maximum nickname length (`MAX_NICKNAME_LEN` of or.h, absent from
this tree); the spec only requires the nickname to be of bounded
length. -/
def MAX_NICKNAME_LEN : Nat := 19

/-- Hex-digit test for digest validation. -/
def char_is_hex (c : Char) : Bool :=
  (('0' ≤ c && c ≤ '9') || ('a' ≤ c && c ≤ 'f')) || ('A' ≤ c && c ≤ 'F')

/-- A well-formed hex identity digest: exactly 40 hex digits. -/
def is_hex_digest (s : String) : Bool :=
  s.data.length == HEX_DIGEST_LEN && s.data.all char_is_hex

/-- Decimal digit run to a number; fails on a non-digit or an empty
run. -/
def digits_to_nat (acc : Nat) : List Char → Option Nat
  | [] => some acc
  | c :: rest =>
      if ('0' ≤ c && c ≤ '9') then
        digits_to_nat (acc * 10 + (c.toNat - '0'.toNat)) rest
      else none

/-- Numeric `bw=` value: an optional minus sign and a non-empty digit
run (the C parser reads a `long` with `tor_parse_long`). -/
def parse_bw_int (s : String) : Option Int :=
  match s.data with
  | [] => none
  | c :: rest =>
      if c = '-' then
        match rest with
        | [] => none
        | _ => (digits_to_nat 0 rest).map (fun n => -(n : Int))
      else (digits_to_nat 0 (c :: rest)).map (fun n => (n : Int))

/-- First token with the given key, if any; unrecognized tokens are
simply ignored (forward compatibility, §4.1). -/
def find_token (key : String) : List (String × String) → Option String
  | [] => none
  | (k, v) :: rest => if k = key then some v else find_token key rest

/-- `measured_bw_line_t` (dirserv.h lines 98-102): the parsed record. -/
structure measured_bw_line_t where
  node_id : String
  node_hex : String
  bw_kb : Int
deriving DecidableEq, Repr

/-- Modelled from the spec: `measured_bw_line_parse` (dirserv.h lines
192-193, body absent) — fails when the mandatory `bw=` token is missing
or non-numeric, or when the mandatory identifier token (`node_id=`, or
else `nickname=`) is missing or malformed (wrong digest length or
non-hex encoding; over-long nickname). -/
def measured_bw_line_parse (tokens : List (String × String)) :
    Option measured_bw_line_t :=
  match find_token "bw" tokens with
  | none => none
  | some bwstr =>
      match parse_bw_int bwstr with
      | none => none
      | some bw =>
          match find_token "node_id" tokens with
          | some idstr =>
              if is_hex_digest idstr then some ⟨idstr, idstr, bw⟩ else none
          | none =>
              match find_token "nickname" tokens with
              | some nick =>
                  if 0 < nick.data.length ∧ nick.data.length ≤ MAX_NICKNAME_LEN
                  then some ⟨"", nick, bw⟩
                  else none
              | none => none

/-- One fold step of the body-line loop of
`dirserv_read_measured_bandwidths`: parse the line; on success apply it
(record it among the applied lines), on failure skip it and bump the
skipped-line counter, leaving the success status untouched. -/
def read_mb_step (acc : Int × List measured_bw_line_t × Nat)
    (line : List (String × String)) : Int × List measured_bw_line_t × Nat :=
  match measured_bw_line_parse line with
  | some parsed => (acc.1, acc.2.1 ++ [parsed], acc.2.2)
  | none => (acc.1, acc.2.1, acc.2.2 + 1)

/-- Modelled from the spec: `dirserv_read_measured_bandwidths`
(dirserv.h lines 207-209, body absent), restricted to the body lines
after the `=====` terminator (file I/O and header collection are
collaborators).  Returns the status (0 = success), the lines passed to
`measured_bw_line_apply` in order, and the count of skipped lines. -/
def dirserv_read_measured_bandwidths
    (body : List (List (String × String))) :
    Int × List measured_bw_line_t × Nat :=
  body.foldl read_mb_step (0, [], 0)

/-- The body fold, from any accumulator: the status is unchanged, parsed
lines are appended in order, and failures are counted. -/
theorem read_mb_foldl (body : List (List (String × String))) (s : Int)
    (a : List measured_bw_line_t) (n : Nat) :
    body.foldl read_mb_step (s, a, n)
      = (s, a ++ body.filterMap measured_bw_line_parse,
         n + body.countP (fun l => (measured_bw_line_parse l).isNone)) := by
  induction body generalizing a n with
  | nil => simp
  | cons line rest ih =>
    rw [List.foldl_cons, read_mb_step]
    cases h : measured_bw_line_parse line with
    | none =>
        simp [ih, List.filterMap_cons, h, List.countP_cons]
        omega
    | some p =>
        simp [ih, List.filterMap_cons, h, List.countP_cons]

/-- C4: a malformed body line never aborts the read — `apply` is never
called for it (the applied lines are exactly the successfully parsed
ones, in order), every other line is still processed, the status is
still success (0), and the skipped count is non-zero. -/
theorem read_measured_bandwidths_skips_malformed
    (body : List (List (String × String))) (line : List (String × String))
    (hmem : line ∈ body)
    (hbad : measured_bw_line_parse line = none) :
    (dirserv_read_measured_bandwidths body).1 = 0 ∧
    (dirserv_read_measured_bandwidths body).2.1
      = body.filterMap measured_bw_line_parse ∧
    (∀ l ∈ body, ∀ p, measured_bw_line_parse l = some p →
      p ∈ (dirserv_read_measured_bandwidths body).2.1) ∧
    0 < (dirserv_read_measured_bandwidths body).2.2 := by
  rw [dirserv_read_measured_bandwidths, read_mb_foldl]
  refine ⟨rfl, by simp, ?_, ?_⟩
  · intro l hl p hp
    simp only [List.nil_append]
    exact List.mem_filterMap.mpr ⟨l, hl, hp⟩
  · simp only [Nat.zero_add]
    exact List.countP_pos_iff.mpr ⟨line, hmem, by simp [hbad]⟩

/-- Witness for `read_measured_bandwidths_skips_malformed`: a two-line
body whose first line lacks any identifier token (it is skipped) and
whose second line is well formed (it is applied); the read succeeds with
one skipped line. -/
theorem read_measured_bandwidths_skips_malformed_witness :
    (dirserv_read_measured_bandwidths
        [[("bw", "800")],
         [("bw", "800"),
          ("node_id", "0123456789012345678901234567890123456789")]]).1 = 0 ∧
    (dirserv_read_measured_bandwidths
        [[("bw", "800")],
         [("bw", "800"),
          ("node_id", "0123456789012345678901234567890123456789")]]).2.1
      = [[("bw", "800")],
         [("bw", "800"),
          ("node_id", "0123456789012345678901234567890123456789")]].filterMap
          measured_bw_line_parse ∧
    (∀ l ∈ [[("bw", "800")],
         [("bw", "800"),
          ("node_id", "0123456789012345678901234567890123456789")]],
      ∀ p, measured_bw_line_parse l = some p →
        p ∈ (dirserv_read_measured_bandwidths
          [[("bw", "800")],
           [("bw", "800"),
            ("node_id", "0123456789012345678901234567890123456789")]]).2.1) ∧
    0 < (dirserv_read_measured_bandwidths
        [[("bw", "800")],
         [("bw", "800"),
          ("node_id", "0123456789012345678901234567890123456789")]]).2.2 :=
  read_measured_bandwidths_skips_malformed _ [("bw", "800")]
    (by simp) (by decide)

/-! ## Shared-document reference counting

`cached_dir_decref` (dirserv.h line 171) and the spooled-resource
construction/destruction live in `dirserv.c`, absent from this tree, so
they are modelled from the spec (§4.5): the count rises by one for every
SpooledResource created on the document and falls by one when one is
destroyed; the document is deallocated exactly when the count reaches
zero.  `n_frees` observes deallocations. -/

/-- A reference-counted shared document plus a deallocation observer. -/
structure cached_dir_t where
  refcnt : Nat
  n_frees : Nat
deriving DecidableEq, Repr

/-- Modelled from the spec: taking a new reference (a SpooledResource is
created pointing at the document). -/
def cached_dir_incref (d : cached_dir_t) : cached_dir_t :=
  { d with refcnt := d.refcnt + 1 }

/-- Modelled from the spec: `cached_dir_decref` (dirserv.h line 171,
body absent) — drop one reference; deallocate exactly when the count
reaches zero. -/
def cached_dir_decref (d : cached_dir_t) : cached_dir_t :=
  if d.refcnt - 1 = 0 then { refcnt := 0, n_frees := d.n_frees + 1 }
  else { d with refcnt := d.refcnt - 1 }

/-- Create `n` SpooledResource references on the document. -/
def spooled_increfs : Nat → cached_dir_t → cached_dir_t
  | 0, d => d
  | n + 1, d => spooled_increfs n (cached_dir_incref d)

/-- Destroy `k` SpooledResource references on the document. -/
def spooled_decrefs : Nat → cached_dir_t → cached_dir_t
  | 0, d => d
  | k + 1, d => spooled_decrefs k (cached_dir_decref d)

theorem spooled_increfs_eq (n : Nat) (r f : Nat) :
    spooled_increfs n ⟨r, f⟩ = ⟨r + n, f⟩ := by
  induction n generalizing r with
  | zero => rfl
  | succ n ih =>
    rw [spooled_increfs, cached_dir_incref, ih]
    simp [Nat.add_comm, Nat.add_assoc, Nat.add_left_comm]

theorem spooled_decrefs_eq (k n f : Nat) (hn : 0 < n) (hk : k ≤ n) :
    spooled_decrefs k ⟨n, f⟩
      = if k = n then ⟨0, f + 1⟩ else ⟨n - k, f⟩ := by
  induction k generalizing n with
  | zero =>
    rw [spooled_decrefs, if_neg (by omega)]
    simp
  | succ k ih =>
    rw [spooled_decrefs]
    by_cases h1 : n = 1
    · subst h1
      have hk0 : k = 0 := by omega
      subst hk0
      simp [cached_dir_decref, spooled_decrefs]
    · have hne : ¬ (n - 1 = 0) := by omega
      have hstep : cached_dir_decref ⟨n, f⟩ = ⟨n - 1, f⟩ := by
        simp [cached_dir_decref, hne]
      rw [hstep, ih (n - 1) (by omega) (by omega)]
      by_cases h2 : k = n - 1
      · rw [if_pos h2, if_pos (by omega)]
      · rw [if_neg h2, if_neg (by omega)]
        congr 1
        omega

/-- C5: with `n` SpooledResource instances created on a fresh shared
document, destroying `k ≤ n` of them deallocates the document exactly
once when `k = n` (after the last destruction) and never while a
resource still holds it (`k < n`), the remaining count being `n - k`. -/
theorem spooled_resource_document_freed_once (n k : Nat)
    (hn : 0 < n) (hk : k ≤ n) :
    (spooled_decrefs k (spooled_increfs n ⟨0, 0⟩)).n_frees
      = (if k = n then 1 else 0) ∧
    (spooled_decrefs k (spooled_increfs n ⟨0, 0⟩)).refcnt = n - k := by
  rw [spooled_increfs_eq, Nat.zero_add, spooled_decrefs_eq k n 0 hn hk]
  by_cases h : k = n
  · rw [if_pos h, if_pos h]
    refine ⟨rfl, ?_⟩
    simp only
    omega
  · rw [if_neg h, if_neg h]
    exact ⟨rfl, rfl⟩

/-- Witness for `spooled_resource_document_freed_once`: two resources on
one document; after destroying both the document has been freed exactly
once, and (by the theorem at `k = 1`, instantiated separately in the
proof of the first conjunct's premise being the full `k = n` case) the
count is zero. -/
theorem spooled_resource_document_freed_once_witness :
    (spooled_decrefs 2 (spooled_increfs 2 ⟨0, 0⟩)).n_frees = 1 ∧
    (spooled_decrefs 2 (spooled_increfs 2 ⟨0, 0⟩)).refcnt = 0 :=
  spooled_resource_document_freed_once 2 2 (by decide) (by decide)

/-! ## Non-eager spooling of a large document

The incremental `spool_send` path for non-eager resources (spec §4.5,
`spooled_resource_t.cached_dir_offset` of dirserv.h lines 91-94; bodies
in dirserv.c, absent) is modelled from the spec: each call emits up to
`max_bytes` bytes of the shared immutable document starting at the
cursor and advances the cursor; the resource is Done exactly when the
cursor equals the document length.  Bytes are `Nat`s. -/

/-- Modelled from the spec: one non-eager `spool_send` call — the chunk
written and the advanced cursor. -/
def spool_send (body : List Nat) (offset max_bytes : Nat) :
    List Nat × Nat :=
  let chunk := (body.drop offset).take max_bytes
  (chunk, offset + chunk.length)

/-- Done exactly when the cursor has consumed the whole document. -/
def spool_done (body : List Nat) (offset : Nat) : Bool :=
  offset == body.length

/-- Stream with the given per-call byte bounds, concatenating the
emitted chunks. -/
def run_spool (body : List Nat) (bounds : List Nat) (offset : Nat) :
    List Nat × Nat :=
  match bounds with
  | [] => ([], offset)
  | m :: rest =>
      let step := spool_send body offset m
      let next := run_spool body rest step.2
      (step.1 ++ next.1, next.2)

/-- The cursor never moves backwards nor past the end, and the emitted
bytes are exactly the document slice between the initial and final
cursor. -/
theorem run_spool_slice (body bounds : List Nat) (offset : Nat)
    (hoff : offset ≤ body.length) :
    offset ≤ (run_spool body bounds offset).2 ∧
    (run_spool body bounds offset).2 ≤ body.length ∧
    (run_spool body bounds offset).1
      = (body.drop offset).take ((run_spool body bounds offset).2 - offset) := by
  induction bounds generalizing offset with
  | nil =>
    refine ⟨Nat.le_refl _, hoff, ?_⟩
    simp [run_spool]
  | cons m rest ih =>
    have hlen : ((body.drop offset).take m).length
        = min m (body.length - offset) := by
      simp [List.length_take, List.length_drop]
    have hoff2 : offset + ((body.drop offset).take m).length ≤ body.length := by
      rw [hlen]; omega
    obtain ⟨h1, h2, h3⟩ := ih (offset + ((body.drop offset).take m).length) hoff2
    rw [run_spool]
    refine ⟨by simpa [spool_send] using Nat.le_trans (by omega) h1,
      by simpa [spool_send] using h2, ?_⟩
    simp only [spool_send]
    rw [h3]
    have harr : (body.drop offset).take ((body.drop offset).take m).length
        = (body.drop offset).take m := by
      rcases Nat.le_total m (body.drop offset).length with hm | hm
      · rw [List.length_take, Nat.min_eq_left hm]
      · rw [List.length_take, Nat.min_eq_right hm, List.take_length]
        exact (List.take_of_length_le hm).symm
    have hdd : (body.drop offset).drop ((body.drop offset).take m).length
        = body.drop (offset + ((body.drop offset).take m).length) :=
      List.drop_drop _ _ _
    have hsplit : (run_spool body rest
          (offset + ((body.drop offset).take m).length)).2 - offset
        = ((body.drop offset).take m).length
          + ((run_spool body rest
            (offset + ((body.drop offset).take m).length)).2
            - (offset + ((body.drop offset).take m).length)) := by
      omega
    rw [hsplit, List.take_add, harr, ← hdd]

/-- With positive bounds summing to at least the remaining length, the
stream finishes: the final cursor is the document length. -/
theorem run_spool_finishes (body bounds : List Nat) (offset : Nat)
    (hoff : offset ≤ body.length)
    (hpos : ∀ b ∈ bounds, 0 < b)
    (hsum : body.length - offset ≤ bounds.sum) :
    (run_spool body bounds offset).2 = body.length := by
  induction bounds generalizing offset with
  | nil =>
    rw [run_spool]
    simp only [List.sum_nil] at hsum
    omega
  | cons m rest ih =>
    have hm : 0 < m := hpos m (by simp)
    have hlen : ((body.drop offset).take m).length
        = min m (body.length - offset) := by
      simp [List.length_take, List.length_drop]
    rw [run_spool]
    simp only [spool_send]
    refine ih (offset + ((body.drop offset).take m).length)
      (by omega) (fun b hb => hpos b (by simp [hb])) ?_
    have hsum' : body.length - offset ≤ m + rest.sum := by
      simpa [List.sum_cons] using hsum
    omega

/-- C6: for a non-eager resource over a document of length `L`, each
`spool_send` call emits at most `max_bytes` bytes, taken from the
document at the current cursor, and advances the cursor by exactly the
number of bytes written; the resource is Done exactly when the cursor
equals `L`; and for any sequence of positive per-call bounds totalling
at least `L`, the concatenation of all emitted chunks is the document
itself, byte for byte, with the final state Done. -/
theorem spool_send_stream_roundtrip (body bounds : List Nat)
    (hpos : ∀ b ∈ bounds, 0 < b) (hsum : body.length ≤ bounds.sum) :
    (∀ offset max_bytes : Nat,
      (spool_send body offset max_bytes).1.length ≤ max_bytes ∧
      (spool_send body offset max_bytes).1
        = (body.drop offset).take max_bytes ∧
      (spool_send body offset max_bytes).2
        = offset + (spool_send body offset max_bytes).1.length) ∧
    (∀ offset : Nat, spool_done body offset = true ↔ offset = body.length) ∧
    (run_spool body bounds 0).2 = body.length ∧
    spool_done body (run_spool body bounds 0).2 = true ∧
    (run_spool body bounds 0).1 = body := by
  have hfin : (run_spool body bounds 0).2 = body.length :=
    run_spool_finishes body bounds 0 (Nat.zero_le _) hpos (by omega)
  refine ⟨?_, ?_, hfin, ?_, ?_⟩
  · intro offset max_bytes
    refine ⟨?_, rfl, rfl⟩
    simp [spool_send, List.length_take]
  · intro offset
    simp [spool_done]
  · simp [spool_done, hfin]
  · obtain ⟨-, -, h3⟩ := run_spool_slice body bounds 0 (Nat.zero_le _)
    rw [h3, hfin]
    simp

/-- Witness for `spool_send_stream_roundtrip`: a 3-byte document
streamed in chunks of at most 2 bytes reproduces the document. -/
theorem spool_send_stream_roundtrip_witness :
    (run_spool [1, 2, 3] [2, 2] 0).1 = [1, 2, 3] :=
  (spool_send_stream_roundtrip [1, 2, 3] [2, 2] (by decide)
    (by decide)).2.2.2.2

end Tor
